import Mathlib

/-!
Shallow embedding of the CAT-Pharmacy adaptive-session decision engine
(`src/backend/session.py`) and proofs about its behaviour.

Modelling conventions:
* Python floats are modelled as rationals (`ℚ`); none of the verified
  properties depends on binary floating-point rounding.
* ISO-8601 timestamp strings are modelled as rationals measuring days;
  the code only ever parses them, adds day intervals, and compares them,
  and lexicographic comparison of equal-format ISO strings agrees with
  chronological comparison.
* `math.exp` and `math.sqrt` are opaque library calls; they are threaded
  through as function parameters `E` and `S` so every definition stays
  executable.  Facts that genuinely depend on them (e.g. positivity of
  `sqrt` on positive input) appear as explicit hypotheses.
* Python `dict`s keyed by unit id are association lists; insertion keeps
  the original position of an existing key, as in CPython.
-/

namespace CatPharmacy

/-- A knowledge unit as normalized by `_load_units`. -/
structure KUnit where
  id : String
  topic : String
  summary : String
  keyPoints : List String
deriving DecidableEq

/-- One per-unit mastery record (`mastery[unit_id]` in the session state).
`none` models a JSON `null` / missing key. -/
structure MasteryEntry where
  score : ℚ
  level : String
  attempts : ℤ
  correct : ℤ
  lastAssessed : Option ℚ
  intervalDays : Option ℚ
  nextReviewAt : Option ℚ
deriving DecidableEq

/-- The entry used when a unit has no mastery record yet (both the
initializer's entry and the fallback dict in `process_response`). -/
def defaultEntry : MasteryEntry :=
  { score := 0, level := "Unknown", attempts := 0, correct := 0,
    lastAssessed := none, intervalDays := none, nextReviewAt := none }

/-- One element of the append-only response log. -/
structure ResponseRecord where
  unitId : String
  isCorrect : Bool
  answer : String
  timestamp : ℚ
  abilityTheta : ℚ
  abilitySE : ℚ
deriving DecidableEq

/-- The persisted session state (`adaptive-session.json`). -/
structure SessionState where
  sessionId : String
  createdAt : ℚ
  updatedAt : ℚ
  abilityTheta : ℚ
  abilitySE : ℚ
  responses : List ResponseRecord
  remainingUnitIds : List String
  activeUnitId : Option String
  unitDifficulties : List (String × ℚ)
  mastery : List (String × MasteryEntry)
  stallCount : ℤ
deriving DecidableEq

/-- The request envelope consumed by `process_response`. -/
structure Payload where
  action : Option String
  unitId : Option String
  answer : Option String
  rawResponse : Option String
  isCorrect : Option Bool
  reset : Bool
deriving DecidableEq

/-- The response envelope fields that carry engine decisions. -/
structure TurnResult where
  sessionId : String
  currentUnit : Option KUnit
  nextUnit : Option KUnit
  resultIsCorrect : Option Bool
  progressCompleted : ℕ
  isComplete : Bool
deriving DecidableEq

/-- `ItemParameter` with the source's defaults (discrimination 1, guessing 0.2). -/
structure ItemParameter where
  difficulty : ℚ
  discrimination : ℚ := 1
  guessing : ℚ := 1/5
deriving DecidableEq

/-- `TerminationCriteria` dataclass. -/
structure TerminationCriteria where
  targetStandardError : ℚ
  maxItems : ℕ
  masteryTheta : Option ℚ
  maxStallCount : ℤ
deriving DecidableEq

/-- `TerminationCriteria.default()` = (0.3, 25, 1.2, 3). -/
def TerminationCriteria.default : TerminationCriteria :=
  { targetStandardError := 3/10, maxItems := 25, masteryTheta := some (6/5),
    maxStallCount := 3 }

/-- `_clamp(value, low, high)`. -/
def pyclamp (value low high : ℚ) : ℚ :=
  max low (min high value)

/-- Python `abs`. -/
def pyabs (x : ℚ) : ℚ :=
  if x < 0 then -x else x

/-- Python truthiness-based `or` on a float: `x or d` yields `d` when `x == 0`. -/
def pyOr0 (x d : ℚ) : ℚ :=
  if x = 0 then d else x

/-- Python truthiness-based `or` on optional strings (both `None` and `""` are falsy). -/
def strOr (a : Option String) (d : String) : String :=
  match a with
  | some s => if s = "" then d else s
  | none => d

/-- Python truthiness-based `or` chaining two optional strings. -/
def optStrOr (a b : Option String) : Option String :=
  match a with
  | some s => if s = "" then b else some s
  | none => b

/-- Drops a falsy (`None` or empty) value to `none`;
models `... if current_unit_id else None`. -/
def truthy (a : Option String) : Option String :=
  match a with
  | some s => if s = "" then none else some s
  | none => none

/-- First-match association-list lookup (Python `dict.get` over unique keys). -/
def assocFind {α : Type} (l : List (String × α)) (k : String) : Option α :=
  match l with
  | [] => none
  | (k', v) :: t => if k' = k then some v else assocFind t k

/-- Association-list store: replaces the first binding of `k` in place,
appending when absent — CPython dict assignment order semantics. -/
def assocStore {α : Type} (l : List (String × α)) (k : String) (v : α) :
    List (String × α) :=
  match l with
  | [] => [(k, v)]
  | (k', v') :: t => if k' = k then (k, v) :: t else (k', v') :: assocStore t k v

/-- `units_by_id = {u["id"]: u for u in units}` — a dict comprehension keeps the
last unit for a duplicated id. -/
def lookupUnit (units : List KUnit) (uid : String) : Option KUnit :=
  units.reverse.find? (fun u => u.id = uid)

/-- `_normalize_level(score, attempts)`. -/
def normalizeLevel (score : ℚ) (attempts : ℤ) : String :=
  if attempts ≤ 0 then "Unknown"
  else if 17/20 ≤ score then "Advanced"
  else if 13/20 ≤ score then "Proficient"
  else if 9/20 ≤ score then "Developing"
  else if 1/5 ≤ score then "Novice"
  else "Unknown"

/-- `_SPACED_BASE_INTERVALS.get(level, 1.0)`. -/
def baseIntervalOf (level : String) : ℚ :=
  if level = "Unknown" then 1/4
  else if level = "Novice" then 1
  else if level = "Developing" then 3
  else if level = "Proficient" then 7
  else if level = "Advanced" then 14
  else 1

/-- `_MAX_INTERVAL_DAYS`. -/
def maxIntervalDays : ℚ := 60

/-- `_schedule_next_review(entry, level, is_correct, assessed_at)`:
returns `(intervalDays, nextReviewAt)`. -/
def scheduleNextReview (entry : MasteryEntry) (level : String) (isCorrect : Bool)
    (assessedAt : ℚ) : ℚ × ℚ :=
  let base := baseIntervalOf level
  let interval :=
    if !isCorrect then min base (1/2)
    else
      match entry.intervalDays with
      | none => base
      | some p => max base (p * (9/5))
  let interval := pyclamp interval (1/4) maxIntervalDays
  (interval, assessedAt + interval)

/-- `_update_mastery_entry(entry, is_correct, assessed_at)`. -/
def updateMasteryEntry (entry : MasteryEntry) (isCorrect : Bool)
    (assessedAt : ℚ) : MasteryEntry :=
  let attempts := entry.attempts + 1
  let correct := entry.correct + (if isCorrect then 1 else 0)
  let score := max 0 (min 1 (entry.score + (if isCorrect then 1/5 else -(3/25))))
  let level := normalizeLevel score attempts
  let sched := scheduleNextReview entry level isCorrect assessedAt
  { score := score, level := level, attempts := attempts, correct := correct,
    lastAssessed := some assessedAt, intervalDays := some sched.1,
    nextReviewAt := some sched.2 }

/-- Python `str.strip()` of an ASCII-whitespace character. -/
def trimChars (s : List Char) : List Char :=
  ((s.dropWhile Char.isWhitespace).reverse.dropWhile Char.isWhitespace).reverse

/-- Python `str.lower()` (ASCII model). -/
def lowerChars (s : List Char) : List Char :=
  s.map Char.toLower

/-- Python `needle in hay` substring membership on character lists. -/
def hasSubstr (needle : List Char) : List Char → Bool
  | [] => needle.isEmpty
  | c :: t => needle.isPrefixOf (c :: t) || hasSubstr needle t

/-- `_evaluate_response(unit, payload)`. -/
def evaluateResponse (unit : KUnit) (payload : Payload) : Bool :=
  match payload.isCorrect with
  | some b => b
  | none =>
    let raw := strOr payload.answer (strOr payload.rawResponse "")
    if trimChars raw.toList = [] then false
    else
      let answer := lowerChars raw.toList
      unit.keyPoints.any (fun kp => hasSubstr (lowerChars (trimChars kp.toList)) answer)

/-- `ItemParameter.probability_correct(theta)`; `E` models `math.exp`. -/
def probabilityCorrect (E : ℚ → ℚ) (p : ItemParameter) (theta : ℚ) : ℚ :=
  let exponent := -(17/10) * p.discrimination * (theta - p.difficulty)
  let capped := max (-35) (min 35 exponent)
  let logistic := 1 / (1 + E capped)
  p.guessing + (1 - p.guessing) * logistic

/-- `ItemParameter.fisher_information(theta)`. -/
def fisherInformation (E : ℚ → ℚ) (p : ItemParameter) (theta : ℚ) : ℚ :=
  let pv := probabilityCorrect E p theta
  let oneMinusGuessing := 1 - p.guessing
  if oneMinusGuessing ≤ 0 then 0
  else
    let clampedP := max (1/10^9) (min (1 - 1/10^9) pv)
    let clampedQ := 1 - clampedP
    let scaledSlope := (17/10) * p.discrimination
    let normalizedP := (clampedP - p.guessing) / oneMinusGuessing
    scaledSlope^2 * (clampedQ / clampedP) * normalizedP^2

/-- `_update_ability_estimate(theta, item_parameter, is_correct)`; returns
`(new_theta, standard_error)`.  `S` models `math.sqrt`, so the source's
`1.0 / math.sqrt(info)` becomes `1 / S info`. -/
def updateAbilityEstimate (E S : ℚ → ℚ) (theta : ℚ) (p : ItemParameter)
    (isCorrect : Bool) : ℚ × ℚ :=
  let probability := probabilityCorrect E p theta
  let score : ℚ := if isCorrect then 1 else 0
  let info := max (fisherInformation E p theta) (1/1000)
  let gradient := score - probability
  let step := gradient / info
  let newTheta := max (-3) (min 3 (theta + step))
  (newTheta, 1 / S info)

/-- One selector candidate (`{"unit": ..., "priority": ..., "lastAssessed": ..., "due": ...}`). -/
structure Cand where
  unit : KUnit
  priority : ℚ
  lastAssessed : Option ℚ
  due : Bool
deriving DecidableEq

/-- The candidate `_select_next_unit` builds for one remaining unit id. -/
def buildCand (E : ℚ → ℚ) (mastery : List (String × MasteryEntry))
    (unitDifficulties : List (String × ℚ)) (theta now : ℚ) (uid : String)
    (unit : KUnit) : Cand :=
  let entry := (assocFind mastery uid).getD defaultEntry
  let score := entry.score
  let difficulty := (assocFind unitDifficulties uid).getD 0
  let info := fisherInformation E { difficulty := difficulty } theta
  let priority := (1 - score) * (1 + info)
  match entry.nextReviewAt with
  | some reviewAt =>
    if reviewAt ≤ now then
      { unit := unit, priority := priority * (9/5), lastAssessed := entry.lastAssessed,
        due := true }
    else
      { unit := unit, priority := priority * (3/5), lastAssessed := entry.lastAssessed,
        due := false }
  | none =>
    { unit := unit, priority := priority, lastAssessed := entry.lastAssessed,
      due := false }

/-- All candidates of `_select_next_unit`, in remaining-pool order. -/
def candidatesOf (E : ℚ → ℚ) (units : List KUnit)
    (remainingUnitIds : List String) (mastery : List (String × MasteryEntry))
    (unitDifficulties : List (String × ℚ)) (theta now : ℚ) : List Cand :=
  remainingUnitIds.filterMap (fun uid =>
    (lookupUnit units uid).map (buildCand E mastery unitDifficulties theta now uid))

/-- Strict comparison of `lastAssessed` sort keys: the source compares the raw
ISO strings, with `""` (never assessed) below every timestamp. -/
def laLT (a b : Option ℚ) : Bool :=
  match a, b with
  | none, some _ => true
  | some x, some y => x < y
  | _, none => false

/-- Strict comparison of the `(due, priority, lastAssessed)` sort tuples. -/
def candLT (a b : Cand) : Bool :=
  let dueN : Bool → ℕ := fun d => if d then 1 else 0
  (dueN a.due < dueN b.due) ||
    (dueN a.due = dueN b.due &&
      (a.priority < b.priority ||
        (a.priority = b.priority && laLT a.lastAssessed b.lastAssessed)))

/-- `candidates.sort(key=...)` followed by `candidates[-1]`: the last
candidate carrying the maximal sort tuple (Python sorts are stable). -/
def pickCand (l : List Cand) : Option Cand :=
  match l with
  | [] => none
  | c :: t => some (t.foldl (fun acc x => if candLT x acc then acc else x) c)

/-- `_select_next_unit(units_by_id, remaining_unit_ids, mastery, unit_difficulties, theta)`. -/
def selectNextUnit (E : ℚ → ℚ) (units : List KUnit)
    (remainingUnitIds : List String) (mastery : List (String × MasteryEntry))
    (unitDifficulties : List (String × ℚ)) (theta now : ℚ) : Option KUnit :=
  (pickCand (candidatesOf E units remainingUnitIds mastery unitDifficulties theta now)).map
    (fun c => c.unit)

/-- `_inject_due_reviews(units_by_id, remaining_unit_ids, mastery)`. -/
def injectDueReviews (now : ℚ) (units : List KUnit)
    (remainingUnitIds : List String) (mastery : List (String × MasteryEntry)) :
    List String :=
  mastery.foldl (fun acc entry =>
    if acc.contains entry.1 then acc
    else if (lookupUnit units entry.1).isNone then acc
    else
      match entry.2.nextReviewAt with
      | none => acc
      | some reviewAt => if reviewAt ≤ now then acc ++ [entry.1] else acc)
    remainingUnitIds

/-- `_initialize_session(units)`; `now` stands for `datetime.utcnow()` and the
session id (a fresh UUID in the source) is an opaque constant. -/
def initializeSession (now : ℚ) (units : List KUnit) : SessionState :=
  let unitIds := units.map (fun u => u.id)
  let count := if unitIds.length = 0 then 1 else unitIds.length
  let unitDifficulties := unitIds.enum.map (fun p =>
    (p.2, if 1 < count then ((p.1 : ℚ) / ((count : ℚ) - 1)) * 2 - 1 else 0))
  { sessionId := "session", createdAt := now, updatedAt := now,
    abilityTheta := -(3/2), abilitySE := 1, responses := [],
    remainingUnitIds := unitIds, activeUnitId := none,
    unitDifficulties := unitDifficulties,
    mastery := unitIds.map (fun uid => (uid, defaultEntry)), stallCount := 0 }

/-- `payload.get("action") or "response"`. -/
def actionOf (payload : Payload) : String :=
  strOr payload.action "response"

/-- The "start or no current unit" branch of `process_response`
(lines 831-854): select a unit and report without mutating the log. -/
def startTurn (E : ℚ → ℚ) (now : ℚ) (units : List KUnit) (st : SessionState)
    (remainingUnitIds : List String) : SessionState × TurnResult :=
  let currentUnit := selectNextUnit E units remainingUnitIds st.mastery
    st.unitDifficulties (pyOr0 st.abilityTheta (-(3/2))) now
  ({ st with activeUnitId := currentUnit.map (fun u => u.id), updatedAt := now },
   { sessionId := st.sessionId, currentUnit := currentUnit, nextUnit := none,
     resultIsCorrect := none, progressCompleted := st.responses.length,
     isComplete := currentUnit.isNone })

/-- The response-processing branch of `process_response` (lines 856-951):
score the answer, update ability/mastery/schedule, evaluate termination,
and pick the next unit. -/
def respondTurn (E S : ℚ → ℚ) (now : ℚ) (units : List KUnit) (st : SessionState)
    (remainingUnitIds : List String) (currentUnit : KUnit) (payload : Payload) :
    SessionState × TurnResult :=
  let isCorrect := evaluateResponse currentUnit payload
  let previousTheta := pyOr0 st.abilityTheta (-(3/2))
  let difficulty := (assocFind st.unitDifficulties currentUnit.id).getD 0
  let updated := updateAbilityEstimate E S previousTheta { difficulty := difficulty } isCorrect
  let responses := st.responses ++
    [{ unitId := currentUnit.id, isCorrect := isCorrect,
       answer := strOr payload.answer (strOr payload.rawResponse ""),
       timestamp := now, abilityTheta := updated.1, abilitySE := updated.2 }]
  let entry := (assocFind st.mastery currentUnit.id).getD defaultEntry
  let newEntry := updateMasteryEntry entry isCorrect now
  let mastery := assocStore st.mastery currentUnit.id newEntry
  let remaining :=
    if 17/20 ≤ newEntry.score then remainingUnitIds.erase currentUnit.id
    else remainingUnitIds
  let thetaShift := pyabs (updated.1 - previousTheta)
  let stallCount := if thetaShift < 1/100 then st.stallCount + 1 else 0
  let criteria := TerminationCriteria.default
  let isComplete :=
    decide (criteria.maxItems ≤ responses.length) ||
    decide (updated.2 ≤ criteria.targetStandardError) ||
    (match criteria.masteryTheta with
     | some m => decide (m ≤ updated.1)
     | none => false) ||
    decide (criteria.maxStallCount ≤ stallCount) ||
    decide (remaining = [])
  let nextUnit :=
    if isComplete then none
    else selectNextUnit E units remaining mastery st.unitDifficulties updated.1 now
  ({ st with
      updatedAt := now, abilityTheta := updated.1, abilitySE := updated.2,
      responses := responses, remainingUnitIds := remaining,
      activeUnitId := nextUnit.map (fun u => u.id), mastery := mastery,
      stallCount := stallCount },
   { sessionId := st.sessionId, currentUnit := some currentUnit,
     nextUnit := nextUnit, resultIsCorrect := some isCorrect,
     progressCompleted := responses.length, isComplete := isComplete })

/-- The state `process_response` works on after the reset check. -/
def effectiveState (now : ℚ) (units : List KUnit) (state : Option SessionState)
    (payload : Payload) : SessionState :=
  let st := state.getD (initializeSession now units)
  if payload.reset then initializeSession now units else st

/-- The remaining pool after the empty-pool refill and due-review injection. -/
def effectiveRemaining (now : ℚ) (units : List KUnit) (st : SessionState) :
    List String :=
  let remaining :=
    if st.remainingUnitIds = [] then units.map (fun u => u.id)
    else st.remainingUnitIds
  injectDueReviews now units remaining st.mastery

/-- The current unit resolved from `payload.get("unitId") or state.get("activeUnitId")`. -/
def currentUnitOf (units : List KUnit) (st : SessionState) (payload : Payload) :
    Option KUnit :=
  (truthy (optStrOr payload.unitId st.activeUnitId)).bind (lookupUnit units)

/-- `process_response(payload, data_dir)`.  `now` stands for
`datetime.utcnow()`; persistence happens through the returned state. -/
def processResponse (E S : ℚ → ℚ) (now : ℚ) (units : List KUnit)
    (state : Option SessionState) (payload : Payload) :
    Except String (SessionState × TurnResult) :=
  if units = [] then
    .error "No knowledge units available. Ingest content before starting a session."
  else
    let st := effectiveState now units state payload
    let remaining := effectiveRemaining now units st
    match currentUnitOf units st payload with
    | none => .ok (startTurn E now units st remaining)
    | some u =>
      if actionOf payload = "start" then .ok (startTurn E now units st remaining)
      else .ok (respondTurn E S now units st remaining u payload)

/-! ### Concrete instantiations used by witnesses and counterexamples -/

/-- A concrete stand-in for `math.exp` (its values never matter to the claims). -/
def E1 : ℚ → ℚ := fun _ => 1

/-- A concrete stand-in for `math.sqrt`; positive on positive inputs. -/
def Sid : ℚ → ℚ := fun x => x

def unit1 : KUnit :=
  { id := "u1", topic := "t", summary := "s", keyPoints := ["Key Point"] }

def units1 : List KUnit := [unit1]

/-- A session state one correct answer away from mastering the only unit. -/
def st08 : SessionState :=
  { sessionId := "session", createdAt := 0, updatedAt := 0,
    abilityTheta := -(3/2), abilitySE := 1, responses := [],
    remainingUnitIds := ["u1"], activeUnitId := some "u1",
    unitDifficulties := [("u1", 0)],
    mastery := [("u1",
      { score := 4/5, level := "Proficient", attempts := 1, correct := 1,
        lastAssessed := some (-1), intervalDays := some 1, nextReviewAt := some 100 })],
    stallCount := 0 }

/-- A response payload carrying an explicit correct answer. -/
def pCorrect : Payload :=
  { action := none, unitId := none, answer := none, rawResponse := none,
    isCorrect := some true, reset := false }

/-- A payload with no response fields at all and no reset flag. -/
def pMissing : Payload :=
  { action := none, unitId := none, answer := none, rawResponse := none,
    isCorrect := none, reset := false }

/-! ### Helper lemmas -/

theorem assocFind_assocStore {α : Type} (l : List (String × α)) (k : String) (v : α) :
    assocFind (assocStore l k v) k = some v := by
  induction l with
  | nil => simp [assocFind, assocStore]
  | cons p t ih =>
    by_cases h : p.1 = k
    · simp [assocFind, assocStore, h]
    · simpa [assocFind, assocStore, h] using ih

/-- `process_response` takes the response branch — and returns exactly
`respondTurn`'s state and envelope — whenever the catalog is nonempty, a
current unit resolves, and the action is not "start". -/
theorem processResponse_respond (E S : ℚ → ℚ) (now : ℚ) (units : List KUnit)
    (state : Option SessionState) (payload : Payload) (u : KUnit)
    (hu : units ≠ [])
    (hcu : currentUnitOf units (effectiveState now units state payload) payload = some u)
    (hact : actionOf payload ≠ "start") :
    processResponse E S now units state payload =
      .ok (respondTurn E S now units (effectiveState now units state payload)
        (effectiveRemaining now units (effectiveState now units state payload))
        u payload) := by
  simp only [processResponse]
  rw [if_neg hu]
  simp only [hcu]
  rw [if_neg hact]

/-! ### Claims -/

/-- Claim C1: after a processed response turn is recorded, the engine reports
`isComplete` true if and only if the response log has at least 25 entries, or
the updated standard error is at most 0.3, or the updated theta is at least
1.2, or the consecutive stall count is at least 3, or the remaining pool is
empty after the mastered-unit removal; in particular 25 recorded responses
force completion. -/
theorem c1_termination_iff (E S : ℚ → ℚ) (now : ℚ) (units : List KUnit)
    (st : SessionState) (remaining : List String) (u : KUnit) (payload : Payload) :
    ((respondTurn E S now units st remaining u payload).2.isComplete = true ↔
      (25 ≤ (respondTurn E S now units st remaining u payload).1.responses.length ∨
       (respondTurn E S now units st remaining u payload).1.abilitySE ≤ 3/10 ∨
       6/5 ≤ (respondTurn E S now units st remaining u payload).1.abilityTheta ∨
       3 ≤ (respondTurn E S now units st remaining u payload).1.stallCount ∨
       (respondTurn E S now units st remaining u payload).1.remainingUnitIds = [])) ∧
    (25 ≤ (respondTurn E S now units st remaining u payload).1.responses.length →
      (respondTurn E S now units st remaining u payload).2.isComplete = true) := by
  constructor
  · simp only [respondTurn, TerminationCriteria.default, Bool.or_eq_true,
      decide_eq_true_eq]
    tauto
  · intro h
    simp only [respondTurn, TerminationCriteria.default] at h ⊢
    simp only [Bool.or_eq_true, decide_eq_true_eq]
    exact Or.inl (Or.inl (Or.inl (Or.inl h)))

/-- Claim C2: each processed response updates the unit's mastery entry by
incrementing attempts, incrementing correct exactly on correct answers,
moving the score by +0.2 / -0.12 clamped to [0,1], storing the level as the
pure function of (score, attempts) with the 0.85/0.65/0.45/0.20 thresholds
and attempts 0 forcing Unknown; the unit leaves the remaining pool exactly
when the updated score reaches 0.85. -/
theorem c2_mastery_update (e : MasteryEntry) (c : Bool) (t : ℚ) (E S : ℚ → ℚ)
    (now : ℚ) (units : List KUnit) (st : SessionState) (remaining : List String)
    (u : KUnit) (payload : Payload) :
    (updateMasteryEntry e c t).attempts = e.attempts + 1 ∧
    (updateMasteryEntry e c t).correct = e.correct + (if c then 1 else 0) ∧
    (updateMasteryEntry e c t).score =
      max 0 (min 1 (e.score + (if c then 1/5 else -(3/25)))) ∧
    (updateMasteryEntry e c t).level =
      normalizeLevel (updateMasteryEntry e c t).score (updateMasteryEntry e c t).attempts ∧
    (∀ s : ℚ, normalizeLevel s 0 = "Unknown") ∧
    (∀ (s : ℚ) (a : ℤ), 1 ≤ a → normalizeLevel s a =
      (if 17/20 ≤ s then "Advanced"
       else if 13/20 ≤ s then "Proficient"
       else if 9/20 ≤ s then "Developing"
       else if 1/5 ≤ s then "Novice"
       else "Unknown")) ∧
    ((respondTurn E S now units st remaining u payload).1.remainingUnitIds =
      (if 17/20 ≤ (updateMasteryEntry ((assocFind st.mastery u.id).getD defaultEntry)
          (evaluateResponse u payload) now).score
       then remaining.erase u.id else remaining)) ∧
    (assocFind (respondTurn E S now units st remaining u payload).1.mastery u.id =
      some (updateMasteryEntry ((assocFind st.mastery u.id).getD defaultEntry)
        (evaluateResponse u payload) now)) := by
  refine ⟨rfl, rfl, rfl, rfl, ?_, ?_, ?_, ?_⟩
  · intro s
    simp [normalizeLevel]
  · intro s a ha
    rw [normalizeLevel, if_neg (by omega)]
  · simp [respondTurn]
  · simp only [respondTurn]
    exact assocFind_assocStore _ _ _

/-- Claim C3: the scheduler uses the base interval of the level
(Unknown 0.25, Novice 1, Developing 3, Proficient 7, Advanced 14), takes
min(base, 0.5) on an incorrect answer, max(base, previous × 1.8) on a correct
answer with a previous interval and base otherwise, clamps the result to
[0.25, 60] days, and sets nextReviewAt to the assessment time plus the
interval; with previous interval 1 at level Developing a correct answer
yields 3 days and an incorrect one 0.5 days. -/
theorem c3_schedule_intervals (e : MasteryEntry) (level : String) (c : Bool) (t : ℚ) :
    ((scheduleNextReview e level c t).1 =
      pyclamp (if c then
          (match e.intervalDays with
           | none => baseIntervalOf level
           | some p => max (baseIntervalOf level) (p * (9/5)))
        else min (baseIntervalOf level) (1/2)) (1/4) 60) ∧
    ((scheduleNextReview e level c t).2 = t + (scheduleNextReview e level c t).1) ∧
    (1/4 ≤ (scheduleNextReview e level c t).1) ∧
    ((scheduleNextReview e level c t).1 ≤ 60) ∧
    baseIntervalOf "Unknown" = 1/4 ∧ baseIntervalOf "Novice" = 1 ∧
    baseIntervalOf "Developing" = 3 ∧ baseIntervalOf "Proficient" = 7 ∧
    baseIntervalOf "Advanced" = 14 ∧
    (scheduleNextReview { defaultEntry with intervalDays := some 1 } "Developing" true 0).1 = 3 ∧
    (scheduleNextReview { defaultEntry with intervalDays := some 1 } "Developing" false 0).1 = 1/2 := by
  refine ⟨?_, rfl, ?_, ?_, ?_, ?_, ?_, ?_, ?_, ?_, ?_⟩
  · cases c <;> simp [scheduleNextReview, maxIntervalDays]
  · exact le_max_left _ _
  · exact max_le (by norm_num) (min_le_left _ _)
  · simp [baseIntervalOf]
  · simp [baseIntervalOf]
  · simp [baseIntervalOf]
  · simp [baseIntervalOf]
  · simp [baseIntervalOf]
  · simp [scheduleNextReview, baseIntervalOf, maxIntervalDays, pyclamp, defaultEntry];
      norm_num
  · simp [scheduleNextReview, baseIntervalOf, maxIntervalDays, pyclamp, defaultEntry];
      norm_num

/-- Claim C10: when the payload has no boolean isCorrect, correctness is
decided by key-point matching — correct iff the effective answer is not
whitespace-only and some key point, stripped and lowercased, occurs as a
substring of the lowercased answer; a missing or whitespace-only answer is
always judged incorrect. -/
theorem c10_keypoint_matching (u : KUnit) (p : Payload) (h : p.isCorrect = none) :
    (evaluateResponse u p = true ↔
      (trimChars (strOr p.answer (strOr p.rawResponse "")).toList ≠ [] ∧
       ∃ kp ∈ u.keyPoints,
         hasSubstr (lowerChars (trimChars kp.toList))
           (lowerChars (strOr p.answer (strOr p.rawResponse "")).toList) = true)) ∧
    (trimChars (strOr p.answer (strOr p.rawResponse "")).toList = [] →
      evaluateResponse u p = false) := by
  constructor
  · simp [evaluateResponse, h, List.any_eq_true]
  · intro hempty
    have hempty' : trimChars (strOr p.answer (strOr p.rawResponse "")).data = [] := hempty
    simp [evaluateResponse, h, hempty']

/-- Claim C10 witness: a payload without isCorrect whose answer contains a
key point is judged correct through the iff. -/
theorem c10_witness :
    evaluateResponse unit1
      { action := none, unitId := none, answer := some "The KEY point is X",
        rawResponse := none, isCorrect := none, reset := false } = true := by
  have h := c10_keypoint_matching unit1
    { action := none, unitId := none, answer := some "The KEY point is X",
      rawResponse := none, isCorrect := none, reset := false } rfl
  exact h.1.mpr (by decide)

/-- Claim C6 counterexample: a response-action payload with none of the
response fields is not rejected — `process_response` returns a normal
envelope (no error), judges the response incorrect, and grows the response
log, so the persisted state differs from the loaded one. -/
theorem c6_counterexample :
    (processResponse E1 Sid 0 units1 (some st08) pMissing).toOption.map
      (fun x => (x.1.responses.length, x.2.resultIsCorrect, x.2.isComplete)) =
      some (1, some false, false) ∧
    st08.responses.length = 0 := by
  constructor
  · simp [processResponse, effectiveState, effectiveRemaining, currentUnitOf, actionOf,
      respondTurn, startTurn, injectDueReviews, evaluateResponse, updateAbilityEstimate,
      probabilityCorrect, fisherInformation, updateMasteryEntry, normalizeLevel,
      scheduleNextReview, baseIntervalOf, maxIntervalDays, selectNextUnit, candidatesOf,
      buildCand, pickCand, candLT, laLT, lookupUnit, assocFind, assocStore, pyclamp,
      pyabs, pyOr0, strOr, optStrOr, truthy, trimChars, defaultEntry,
      TerminationCriteria.default, units1, unit1, st08, pMissing, E1, Sid,
      max_def, min_def]
    norm_num
    simp
    norm_num
    exact ⟨_, _, rfl, rfl, rfl, rfl⟩
  · rfl

/-- Claim C6 amended: a response-action payload missing the response fields
is not treated as an error — the empty answer is judged incorrect and the
response is still recorded, so the session state mutates. -/
theorem c6_amended (E S : ℚ → ℚ) (now : ℚ) (units : List KUnit)
    (st : SessionState) (remaining : List String) (u : KUnit)
    (act uid : Option String) (r : Bool) :
    evaluateResponse u
      { action := act, unitId := uid, answer := none, rawResponse := none,
        isCorrect := none, reset := r } = false ∧
    (respondTurn E S now units st remaining u
      { action := act, unitId := uid, answer := none, rawResponse := none,
        isCorrect := none, reset := r }).1.responses.length =
      st.responses.length + 1 ∧
    (respondTurn E S now units st remaining u
      { action := act, unitId := uid, answer := none, rawResponse := none,
        isCorrect := none, reset := r }).2.resultIsCorrect =
      some (evaluateResponse u
        { action := act, unitId := uid, answer := none, rawResponse := none,
          isCorrect := none, reset := r }) := by
  refine ⟨?_, ?_, ?_⟩
  · simp [evaluateResponse, strOr, trimChars]
  · simp [respondTurn]
  · simp [respondTurn]

/-- Bounds for one ability update: theta is clamped into [-3, 3] and the
standard error `1 / sqrt(info)` is positive because the information is
floored at 1e-3. -/
theorem updateAbility_bounds (E S : ℚ → ℚ) (theta : ℚ) (p : ItemParameter)
    (c : Bool) (hS : ∀ x : ℚ, 0 < x → 0 < S x) :
    -3 ≤ (updateAbilityEstimate E S theta p c).1 ∧
    (updateAbilityEstimate E S theta p c).1 ≤ 3 ∧
    0 < (updateAbilityEstimate E S theta p c).2 := by
  simp only [updateAbilityEstimate]
  refine ⟨le_max_left _ _, max_le (by norm_num) (min_le_left _ _), ?_⟩
  have hx : (0:ℚ) < max (fisherInformation E p theta) (1/1000) :=
    lt_of_lt_of_le (by norm_num) (le_max_right _ _)
  exact one_div_pos.mpr (hS _ hx)

/-- Claim C8: every ability update computes the one-step estimator
(gradient over floored Fisher information), clamps theta into [-3, 3], and
produces a positive standard error; the invariant holds after the response
path of `process_response` and at session initialization. -/
theorem c8_ability_invariant (E S : ℚ → ℚ) (theta : ℚ) (p : ItemParameter)
    (c : Bool) (hS : ∀ x : ℚ, 0 < x → 0 < S x) :
    (-3 ≤ (updateAbilityEstimate E S theta p c).1) ∧
    ((updateAbilityEstimate E S theta p c).1 ≤ 3) ∧
    (0 < (updateAbilityEstimate E S theta p c).2) ∧
    ((updateAbilityEstimate E S theta p c).1 =
      max (-3) (min 3 (theta +
        ((if c then (1:ℚ) else 0) - probabilityCorrect E p theta) /
          max (fisherInformation E p theta) (1/1000)))) ∧
    ((updateAbilityEstimate E S theta p c).2 =
      1 / S (max (fisherInformation E p theta) (1/1000))) ∧
    (∀ (now : ℚ) (units : List KUnit) (st : SessionState)
        (remaining : List String) (u : KUnit) (payload : Payload),
      -3 ≤ (respondTurn E S now units st remaining u payload).1.abilityTheta ∧
      (respondTurn E S now units st remaining u payload).1.abilityTheta ≤ 3 ∧
      0 < (respondTurn E S now units st remaining u payload).1.abilitySE) ∧
    (∀ (now : ℚ) (units : List KUnit),
      -3 ≤ (initializeSession now units).abilityTheta ∧
      (initializeSession now units).abilityTheta ≤ 3 ∧
      0 < (initializeSession now units).abilitySE) := by
  obtain ⟨h1, h2, h3⟩ := updateAbility_bounds E S theta p c hS
  refine ⟨h1, h2, h3, rfl, rfl, ?_, ?_⟩
  · intro now units st remaining u payload
    simp only [respondTurn]
    exact updateAbility_bounds E S _ _ _ hS
  · intro now units
    refine ⟨by norm_num [initializeSession], by norm_num [initializeSession],
      by norm_num [initializeSession]⟩

/-- Claim C8 witness: the invariant instantiated at a concrete update with
`sqrt` modelled by a function positive on positive inputs. -/
theorem c8_witness :
    (∀ x : ℚ, 0 < x → 0 < Sid x) ∧
    (-3 ≤ (updateAbilityEstimate E1 Sid 0 { difficulty := 0 } true).1) ∧
    (0 < (updateAbilityEstimate E1 Sid 0 { difficulty := 0 } true).2) := by
  have h := c8_ability_invariant E1 Sid 0 { difficulty := 0 } true (fun x hx => hx)
  exact ⟨fun x hx => hx, h.1, h.2.2.1⟩

/-- The last-maximum fold behind the selector keeps a due candidate whenever
the accumulator or any remaining candidate is due: due items dominate the
first component of the sort tuple. -/
theorem foldl_pick_due (t : List Cand) :
    ∀ acc : Cand, (acc.due = true ∨ ∃ x ∈ t, x.due = true) →
      (t.foldl (fun acc x => if candLT x acc then acc else x) acc).due = true := by
  induction t with
  | nil =>
    intro acc hacc
    rcases hacc with hd | ⟨x, hx, _⟩
    · simpa using hd
    · simp at hx
  | cons b t2 ih =>
    intro acc hacc
    simp only [List.foldl_cons]
    apply ih
    rcases hacc with hd | ⟨x, hx, hxd⟩
    · by_cases hlt : candLT b acc = true
      · left
        simpa [hlt] using hd
      · left
        cases hb : b.due
        · exfalso
          apply hlt
          simp [candLT, hb, hd]
        · simp only [Bool.not_eq_true] at hlt
          simp [hlt, hb]
    · rcases List.mem_cons.mp hx with h1 | h2
      · subst h1
        by_cases hlt : candLT x acc = true
        · left
          cases ha : acc.due
          · exfalso
            simp [candLT, hxd, ha] at hlt
          · simp [hlt, ha]
        · left
          simp only [Bool.not_eq_true] at hlt
          simp [hlt, hxd]
      · right
        exact ⟨x, h2, hxd⟩

/-- When some candidate is due, the selector's last-maximum pick is due. -/
theorem pickCand_due (cands : List Cand) (hdue : ∃ c ∈ cands, c.due = true) :
    ∃ c, pickCand cands = some c ∧ c.due = true := by
  match cands with
  | [] => simp at hdue
  | a :: t =>
    refine ⟨_, rfl, ?_⟩
    apply foldl_pick_due
    rcases hdue with ⟨c, hc, hcd⟩
    rcases List.mem_cons.mp hc with h1 | h2
    · left
      rw [← h1]
      exact hcd
    · right
      exact ⟨c, h2, hcd⟩

/-- Claim C4: if the candidate set contains a due and a non-due candidate,
the selector returns a due candidate, regardless of priorities. -/
theorem c4_due_priority (E : ℚ → ℚ) (units : List KUnit)
    (remaining : List String) (m : List (String × MasteryEntry))
    (d : List (String × ℚ)) (theta now : ℚ)
    (hdue : ∃ c ∈ candidatesOf E units remaining m d theta now, c.due = true)
    (_hnondue : ∃ c ∈ candidatesOf E units remaining m d theta now, c.due = false) :
    ∃ c, pickCand (candidatesOf E units remaining m d theta now) = some c ∧
      c.due = true ∧
      selectNextUnit E units remaining m d theta now = some c.unit := by
  obtain ⟨c, hc, hcd⟩ := pickCand_due _ hdue
  exact ⟨c, hc, hcd, by simp [selectNextUnit, hc]⟩

def unitA : KUnit := { id := "a", topic := "", summary := "", keyPoints := [] }

def unitB : KUnit := { id := "b", topic := "", summary := "", keyPoints := [] }

def unitsAB : List KUnit := [unitA, unitB]

/-- Mastery data with one due unit ("a") and one non-due unit ("b"). -/
def mDue : List (String × MasteryEntry) :=
  [("a", { score := 1, level := "Advanced", attempts := 1, correct := 1,
           lastAssessed := some 1, intervalDays := some 1, nextReviewAt := some (-1) }),
   ("b", { score := 1, level := "Advanced", attempts := 1, correct := 1,
           lastAssessed := some 2, intervalDays := some 1, nextReviewAt := some 100 })]

/-- Claim C4 witness: with a due and a non-due candidate present, the theorem
yields the due one at a concrete input. -/
theorem c4_witness :
    ∃ c, pickCand (candidatesOf E1 unitsAB ["a", "b"] mDue [] 0 0) = some c ∧
      c.due = true ∧
      selectNextUnit E1 unitsAB ["a", "b"] mDue [] 0 0 = some c.unit := by
  apply c4_due_priority
  · refine ⟨buildCand E1 mDue [] 0 0 "a" unitA, ?_, ?_⟩
    · simp [candidatesOf, lookupUnit, unitsAB, unitA, unitB]
    · simp [buildCand, mDue, assocFind]
      try norm_num
  · refine ⟨buildCand E1 mDue [] 0 0 "b" unitB, ?_, ?_⟩
    · simp [candidatesOf, lookupUnit, unitsAB, unitA, unitB]
    · simp [buildCand, mDue, assocFind]
      try norm_num

/-- The candidate record always carries the unit it was built for. -/
theorem buildCand_unit (E : ℚ → ℚ) (m : List (String × MasteryEntry))
    (d : List (String × ℚ)) (theta now : ℚ) (uid : String) (u : KUnit) :
    (buildCand E m d theta now uid u).unit = u := by
  unfold buildCand
  cases h : ((assocFind m uid).getD defaultEntry).nextReviewAt <;> simp [h]
  split <;> rfl

/-- Claim C5 amended: a selector candidate's priority is
`(1 - masteryScore) * (1 + FisherInformation(theta, unitDifficulty))`,
multiplied by 1.8 with due = 1 when `nextReviewAt` has passed and by 0.6
with due = 0 when `nextReviewAt` exists but lies in the future; a unit
without `nextReviewAt` (never assessed) keeps the unmultiplied priority
with due = 0. -/
theorem c5_priority_formula (E : ℚ → ℚ) (units : List KUnit)
    (remaining : List String) (m : List (String × MasteryEntry))
    (d : List (String × ℚ)) (theta now : ℚ) (c : Cand)
    (hc : c ∈ candidatesOf E units remaining m d theta now) :
    (((assocFind m c.unit.id).getD defaultEntry).nextReviewAt = none →
      c.priority = (1 - ((assocFind m c.unit.id).getD defaultEntry).score) *
        (1 + fisherInformation E
          { difficulty := (assocFind d c.unit.id).getD 0 } theta) ∧
      c.due = false) ∧
    (∀ t, ((assocFind m c.unit.id).getD defaultEntry).nextReviewAt = some t →
      t ≤ now →
      c.priority = ((1 - ((assocFind m c.unit.id).getD defaultEntry).score) *
        (1 + fisherInformation E
          { difficulty := (assocFind d c.unit.id).getD 0 } theta)) * (9/5) ∧
      c.due = true) ∧
    (∀ t, ((assocFind m c.unit.id).getD defaultEntry).nextReviewAt = some t →
      ¬ t ≤ now →
      c.priority = ((1 - ((assocFind m c.unit.id).getD defaultEntry).score) *
        (1 + fisherInformation E
          { difficulty := (assocFind d c.unit.id).getD 0 } theta)) * (3/5) ∧
      c.due = false) := by
  obtain ⟨uid, hmem, hmap⟩ := List.mem_filterMap.mp hc
  obtain ⟨u, hfind, hbuild⟩ := Option.map_eq_some'.mp hmap
  have huid : u.id = uid := by
    have := List.find?_some hfind
    exact of_decide_eq_true this
  have hcu : c.unit = u := by
    rw [← hbuild]
    exact buildCand_unit E m d theta now uid u
  have hcid : c.unit.id = uid := by rw [hcu, huid]
  subst hbuild
  rw [hcid]
  refine ⟨?_, ?_, ?_⟩
  · intro hrev
    simp [buildCand, hrev]
  · intro t hrev hle
    simp [buildCand, hrev, hle]
  · intro t hrev hgt
    simp [buildCand, hrev, hgt]

/-- Claim C5 witness: the formula instantiated at a concrete candidate of a
concrete pool (a never-assessed unit keeps base priority with due = 0). -/
theorem c5_witness :
    (buildCand E1 [] [] 0 0 "u1" unit1).priority =
      (1 - ((assocFind ([] : List (String × MasteryEntry))
        (buildCand E1 [] [] 0 0 "u1" unit1).unit.id).getD defaultEntry).score) *
      (1 + fisherInformation E1
        { difficulty := (assocFind ([] : List (String × ℚ))
            (buildCand E1 [] [] 0 0 "u1" unit1).unit.id).getD 0 } 0) ∧
    (buildCand E1 [] [] 0 0 "u1" unit1).due = false := by
  have h := c5_priority_formula E1 units1 ["u1"] [] [] 0 0
    (buildCand E1 [] [] 0 0 "u1" unit1)
    (by simp [candidatesOf, lookupUnit, units1, unit1])
  exact h.1 rfl

/-- Claim C5 counterexample: the claim's "otherwise multiplied by 0.6
(including never-assessed units)" fails — the concrete candidate of a unit
with no `nextReviewAt` keeps the unmultiplied priority, which differs from
0.6 times the base priority. -/
theorem c5_counterexample :
    candidatesOf E1 units1 ["u1"] [] [] 0 0 = [buildCand E1 [] [] 0 0 "u1" unit1] ∧
    ((assocFind ([] : List (String × MasteryEntry)) "u1").getD defaultEntry).nextReviewAt
      = none ∧
    (buildCand E1 [] [] 0 0 "u1" unit1).due = false ∧
    (buildCand E1 [] [] 0 0 "u1" unit1).priority ≠
      (3/5) * ((1 - ((assocFind ([] : List (String × MasteryEntry)) "u1").getD
          defaultEntry).score) *
        (1 + fisherInformation E1 { difficulty := 0 } 0)) := by
  refine ⟨by simp [candidatesOf, lookupUnit, units1, unit1], rfl, rfl, ?_⟩
  simp [buildCand, assocFind, defaultEntry, fisherInformation, probabilityCorrect,
    E1, max_def, min_def]
  norm_num

/-- `laLT` is asymmetric, like the string comparison it models. -/
theorem laLT_asymm (a b : Option ℚ) (h : laLT a b = true) : laLT b a = false := by
  cases a <;> cases b <;> simp_all [laLT]
  linarith

/-- Claim C9 amended: between two candidates with the same due flag the
higher priority wins; on equal priorities the larger (most recent)
`lastAssessed` wins, never-assessed (empty) sorting lowest so such units
lose ties. -/
theorem c9_pair_tiebreak (c1 c2 : Cand) (h : c1.due = c2.due) :
    (c1.priority < c2.priority → pickCand [c1, c2] = some c2) ∧
    (c2.priority < c1.priority → pickCand [c1, c2] = some c1) ∧
    (c1.priority = c2.priority →
      (laLT c1.lastAssessed c2.lastAssessed = true → pickCand [c1, c2] = some c2) ∧
      (laLT c2.lastAssessed c1.lastAssessed = true → pickCand [c1, c2] = some c1) ∧
      (c1.lastAssessed = none → ∀ q, c2.lastAssessed = some q →
        pickCand [c1, c2] = some c2)) := by
  refine ⟨?_, ?_, ?_⟩
  · intro hp
    have h1 : ¬ (c2.priority < c1.priority) := not_lt.mpr (le_of_lt hp)
    have h2 : ¬ (c2.priority = c1.priority) := (ne_of_gt hp)
    simp [pickCand, candLT, h, h1, h2]
  · intro hp
    simp [pickCand, candLT, h, hp]
  · intro hp
    have h1 : ¬ (c2.priority < c1.priority) := by rw [hp]; exact lt_irrefl _
    refine ⟨?_, ?_, ?_⟩
    · intro hla
      have h2 : laLT c2.lastAssessed c1.lastAssessed = false := laLT_asymm _ _ hla
      simp [pickCand, candLT, h, h1, hp, h2]
    · intro hla
      simp [pickCand, candLT, h, hp, hla]
    · intro hnone q hq
      have hla : laLT c1.lastAssessed c2.lastAssessed = true := by
        simp [laLT, hnone, hq]
      have h2 : laLT c2.lastAssessed c1.lastAssessed = false := laLT_asymm _ _ hla
      simp [pickCand, candLT, h, h1, hp, h2]

/-- Claim C9 witness: the pair rules instantiated at two concrete non-due
candidates with equal priorities — the more recently assessed one is picked. -/
theorem c9_witness :
    pickCand [{ unit := unitA, priority := 1, lastAssessed := some 1, due := false },
              { unit := unitB, priority := 1, lastAssessed := some 2, due := false }] =
      some { unit := unitB, priority := 1, lastAssessed := some 2, due := false } := by
  have h := c9_pair_tiebreak
    { unit := unitA, priority := 1, lastAssessed := some 1, due := false }
    { unit := unitB, priority := 1, lastAssessed := some 2, due := false } rfl
  exact (h.2.2 rfl).1 (by norm_num [laLT])

/-- Mastery data with two due units of equal priority, assessed at times 1
("a", stale) and 2 ("b", recent). -/
def mC9 : List (String × MasteryEntry) :=
  [("a", { score := 1, level := "Advanced", attempts := 1, correct := 1,
           lastAssessed := some 1, intervalDays := some 1, nextReviewAt := some (-1) }),
   ("b", { score := 1, level := "Advanced", attempts := 1, correct := 1,
           lastAssessed := some 2, intervalDays := some 1, nextReviewAt := some (-1) })]

/-- Claim C9 counterexample: with equal due flags and equal priorities the
selector returns the most recently assessed unit "b", not the most stale
one — refuting "the most-stale lastAssessed is selected". -/
theorem c9_counterexample :
    selectNextUnit E1 unitsAB ["a", "b"] mC9 [] 0 0 = some unitB ∧
    unitB ≠ unitA ∧
    laLT (some 1) (some 2) = true := by
  refine ⟨?_, by decide, by norm_num [laLT]⟩
  simp [selectNextUnit, candidatesOf, lookupUnit, unitsAB, unitA, unitB, mC9,
    buildCand, assocFind, defaultEntry, pickCand, candLT, laLT]
  try norm_num

/-- Due-review injection only ever appends to the remaining pool. -/
theorem injectDueReviews_extends (now : ℚ) (units : List KUnit)
    (m : List (String × MasteryEntry)) :
    ∀ l : List String, ∃ ext, injectDueReviews now units l m = l ++ ext := by
  induction m with
  | nil =>
    intro l
    exact ⟨[], by simp [injectDueReviews]⟩
  | cons p t ih =>
    intro l
    have hstep : ∃ e0 : List String,
        (if l.contains p.1 then l
         else if (lookupUnit units p.1).isNone then l
         else match p.2.nextReviewAt with
           | none => l
           | some r => if r ≤ now then l ++ [p.1] else l) = l ++ e0 := by
      by_cases h1 : p.1 ∈ l
      · exact ⟨[], by simp [h1]⟩
      · by_cases h2 : (lookupUnit units p.1).isNone
        · exact ⟨[], by simp [h1, h2]⟩
        · cases hr : p.2.nextReviewAt with
          | none => exact ⟨[], by simp [h1, h2, hr]⟩
          | some r =>
            by_cases h3 : r ≤ now
            · exact ⟨[p.1], by simp [h1, h2, hr, h3]⟩
            · exact ⟨[], by simp [h1, h2, hr, h3]⟩
    obtain ⟨e0, he0⟩ := hstep
    obtain ⟨ext, hext⟩ := ih (l ++ e0)
    refine ⟨e0 ++ ext, ?_⟩
    simp only [injectDueReviews, List.foldl_cons] at hext ⊢
    rw [he0, hext, List.append_assoc]

/-- A unit of the catalog is always found by the id dictionary. -/
theorem lookupUnit_isSome (units : List KUnit) (u : KUnit) (hu : u ∈ units) :
    (lookupUnit units u.id).isSome := by
  unfold lookupUnit
  rw [List.find?_isSome]
  exact ⟨u, List.mem_reverse.mpr hu, by simp⟩

/-- A remaining id with a catalog entry yields at least one candidate. -/
theorem candidatesOf_ne_nil (E : ℚ → ℚ) (units : List KUnit)
    (remaining : List String) (m : List (String × MasteryEntry))
    (d : List (String × ℚ)) (theta now : ℚ) (uid : String)
    (hmem : uid ∈ remaining) (hsome : (lookupUnit units uid).isSome) :
    candidatesOf E units remaining m d theta now ≠ [] := by
  intro hnil
  rw [candidatesOf, List.filterMap_eq_nil_iff] at hnil
  have := hnil uid hmem
  rw [Option.map_eq_none'] at this
  rw [this] at hsome
  simp at hsome

/-- The last-maximum pick answers on every nonempty candidate list. -/
theorem pickCand_isSome (l : List Cand) (h : l ≠ []) :
    ∃ c, pickCand l = some c := by
  cases l with
  | nil => exact absurd rfl h
  | cons a t => exact ⟨_, rfl⟩

/-- Claim C7 amended: completion is not a persisted terminal state.  After a
turn that exhausted the remaining pool (the completed state stores no pool
and no active unit), the next request without reset refills the pool from
the catalog, selects a unit, and reports `isComplete` false; only the
explicit reset flag reinitializes the session. -/
theorem c7_amended (E S : ℚ → ℚ) (now : ℚ) (units : List KUnit)
    (st : SessionState) (payload : Payload) (hu : units ≠ [])
    (hreset : payload.reset = false) (hrem : st.remainingUnitIds = [])
    (hact : st.activeUnitId = none) (hpid : payload.unitId = none) :
    ∃ st2 r, processResponse E S now units (some st) payload = .ok (st2, r) ∧
      r.isComplete = false ∧ r.currentUnit.isSome = true := by
  have hes : effectiveState now units (some st) payload = st := by
    simp [effectiveState, hreset]
  have hcu : currentUnitOf units st payload = none := by
    simp [currentUnitOf, hpid, optStrOr, hact, truthy]
  obtain ⟨ext, hext⟩ :=
    injectDueReviews_extends now units st.mastery (units.map (fun u => u.id))
  have heff : effectiveRemaining now units st = units.map (fun u => u.id) ++ ext := by
    simp [effectiveRemaining, hrem, hext]
  obtain ⟨u0, hu0⟩ : ∃ u0, u0 ∈ units := by
    cases units with
    | nil => exact absurd rfl hu
    | cons a t => exact ⟨a, List.mem_cons_self a t⟩
  have hmem : u0.id ∈ effectiveRemaining now units st := by
    rw [heff]
    exact List.mem_append_left _ (List.mem_map_of_mem _ hu0)
  have hcand := candidatesOf_ne_nil E units (effectiveRemaining now units st)
    st.mastery st.unitDifficulties (pyOr0 st.abilityTheta (-(3/2))) now u0.id hmem
    (lookupUnit_isSome units u0 hu0)
  obtain ⟨c, hc⟩ := pickCand_isSome _ hcand
  have hsel : selectNextUnit E units (effectiveRemaining now units st) st.mastery
      st.unitDifficulties (pyOr0 st.abilityTheta (-(3/2))) now = some c.unit := by
    simp [selectNextUnit, hc]
  refine ⟨(startTurn E now units st (effectiveRemaining now units st)).1,
          (startTurn E now units st (effectiveRemaining now units st)).2, ?_, ?_, ?_⟩
  · simp only [processResponse]
    rw [if_neg hu]
    simp only [hes, hcu]
  · simp [startTurn, hsel]
  · simp [startTurn, hsel]

/-- A freshly completed session whose pool has emptied. -/
def stEmpty : SessionState :=
  { sessionId := "session", createdAt := 0, updatedAt := 0,
    abilityTheta := -(3/2), abilitySE := 1, responses := [],
    remainingUnitIds := [], activeUnitId := none,
    unitDifficulties := [("u1", 0)], mastery := [("u1", defaultEntry)],
    stallCount := 0 }

/-- Claim C7 witness: the amended behaviour at a concrete empty-pool state. -/
theorem c7_witness :
    ∃ st2 r, processResponse E1 Sid 0 units1 (some stEmpty) pMissing = .ok (st2, r) ∧
      r.isComplete = false ∧ r.currentUnit.isSome = true :=
  c7_amended E1 Sid 0 units1 stEmpty pMissing (by simp [units1]) rfl rfl rfl rfl

/-- The state after the completing turn of the C7 counterexample. -/
def st1exp : SessionState :=
  { sessionId := "session", createdAt := 0, updatedAt := 0,
    abilityTheta := -(387/578), abilitySE := 600/289,
    responses := [{ unitId := "u1", isCorrect := true, answer := "",
                    timestamp := 0, abilityTheta := -(387/578), abilitySE := 600/289 }],
    remainingUnitIds := [], activeUnitId := none,
    unitDifficulties := [("u1", 0)],
    mastery := [("u1",
      { score := 1, level := "Advanced", attempts := 2, correct := 2,
        lastAssessed := some 0, intervalDays := some 14, nextReviewAt := some 14 })],
    stallCount := 0 }

/-- The envelope of the completing turn of the C7 counterexample. -/
def r1exp : TurnResult :=
  { sessionId := "session", currentUnit := some unit1, nextUnit := none,
    resultIsCorrect := some true, progressCompleted := 1, isComplete := true }

/-- Claim C7 counterexample: a turn reports `isComplete` true (pool
exhausted by mastering the unit), yet the very next request without reset
selects a unit again and reports `isComplete` false — the Complete state is
not sticky. -/
theorem c7_counterexample :
    processResponse E1 Sid 0 units1 (some st08) pCorrect = .ok (st1exp, r1exp) ∧
    r1exp.isComplete = true ∧
    pMissing.reset = false ∧
    (processResponse E1 Sid 1 units1 (some st1exp) pMissing).toOption.map
      (fun x => (x.2.isComplete, x.2.currentUnit)) = some (false, some unit1) := by
  refine ⟨?_, rfl, rfl, ?_⟩
  · simp [processResponse, effectiveState, effectiveRemaining, currentUnitOf, actionOf,
      respondTurn, startTurn, injectDueReviews, evaluateResponse, updateAbilityEstimate,
      probabilityCorrect, fisherInformation, updateMasteryEntry, normalizeLevel,
      scheduleNextReview, baseIntervalOf, maxIntervalDays, selectNextUnit, candidatesOf,
      buildCand, pickCand, candLT, laLT, lookupUnit, assocFind, assocStore, pyclamp,
      pyabs, pyOr0, strOr, optStrOr, truthy, trimChars, defaultEntry,
      TerminationCriteria.default, units1, unit1, st08, pCorrect, st1exp, r1exp,
      E1, Sid, max_def, min_def]
    try norm_num
    try simp
    try norm_num
  · simp [processResponse, effectiveState, effectiveRemaining, currentUnitOf, actionOf,
      respondTurn, startTurn, injectDueReviews, evaluateResponse, updateAbilityEstimate,
      probabilityCorrect, fisherInformation, updateMasteryEntry, normalizeLevel,
      scheduleNextReview, baseIntervalOf, maxIntervalDays, selectNextUnit, candidatesOf,
      buildCand, pickCand, candLT, laLT, lookupUnit, assocFind, assocStore, pyclamp,
      pyabs, pyOr0, strOr, optStrOr, truthy, trimChars, defaultEntry,
      TerminationCriteria.default, units1, unit1, st1exp, pMissing, E1, Sid,
      max_def, min_def]
    try norm_num
    try simp
    try norm_num
    exact ⟨_, _, rfl, rfl, rfl⟩

end CatPharmacy
